import Mathlib

/-!
Shallow embedding of the roster-scheduling program (src/main.py).

The program builds a pyomo model over a fixed roster of four persons and the
horizon 2024-01-01 .. 2024-01-31.  Dates are embedded as `Nat` offsets from
2024-01-01 (so the horizon is `0 .. 30`).  The binary decision variable
`model.shifts[person, date]` becomes a function `Shifts : String → Nat → Bool`.
-/

namespace Roster

/-- persons = ["John", "Peter", "Mary", "Josh"]  (src/main.py line 7). -/
def persons : List String := ["John", "Peter", "Mary", "Josh"]

/-- The horizon length: pd.date_range of 2024-01-01 .. 2024-01-31 has 31 days. -/
def numDates : Nat := 31

/-- dates = pd.date_range(2024-01-01, 2024-01-31), embedded as offsets 0..30. -/
def dates : List Nat := List.range numDates

/-- AL, the annual-leave dictionary (src/main.py lines 11-16), with each date
string replaced by its offset from 2024-01-01: John gets Jan 1-3 (0,1,2),
Peter Jan 4 and Jan 11 (3,10), Mary Jan 28-30 (27,28,29), Josh Jan 15 (14).
The dictionary has exactly the four roster keys; other strings are unreachable
through the program. -/
def AL : String → List Nat
  | "John" => [0, 1, 2]
  | "Peter" => [3, 10]
  | "Mary" => [27, 28, 29]
  | "Josh" => [14]
  | _ => []

/-- The binary variable family model.shifts = Var(persons, dates, within=Binary):
a candidate valuation assigns each (person, date) a 0/1 value, embedded as Bool. -/
abbrev Shifts := String → Nat → Bool

/-- Numeric (0/1) value of one shift variable, as summed by the constraints. -/
def b (x : Shifts) (person : String) (date : Nat) : Nat :=
  if x person date then 1 else 0

/-- rule_1 (src/main.py lines 25-26): for a given date,
sum(model.shifts[person, date] for person in persons) == 1. -/
def rule_1 (x : Shifts) (date : Nat) : Prop :=
  (persons.map (fun person => b x person date)).sum = 1

/-- date_list in rule_2: pd.date_range(date, date + 2 days) = the 3 consecutive
days starting at date. -/
def date_list (date : Nat) : List Nat := [date, date + 1, date + 2]

/-- The guard of rule_2: all([date in dates for date in date_list]). -/
def rule_2_applies (date : Nat) : Bool :=
  (date_list date).all (fun d => decide (d ∈ dates))

/-- rule_2 (src/main.py lines 30-38): when all three days of date_list lie in
the horizon, sum(model.shifts[person, d] for d in date_list) <= 1; otherwise
the rule returns Constraint.Skip, i.e. no constraint is imposed (the guard
being false makes the proposition trivially true). -/
def rule_2 (x : Shifts) (person : String) (date : Nat) : Prop :=
  rule_2_applies date = true →
    ((date_list date).map (fun d => b x person d)).sum ≤ 1

/-- rule_3 (src/main.py lines 42-43): for a given person,
sum(model.shifts[person, d] for d in AL[person]) == 0. -/
def rule_3 (x : Shifts) (person : String) : Prop :=
  ((AL person).map (fun d => b x person d)).sum = 0

/-- A valuation of the shift variables satisfying every generated constraint of
the model: rule_1 over dates, rule_2 over persons x dates, rule_3 over persons. -/
def feasible (x : Shifts) : Prop :=
  (∀ d ∈ dates, rule_1 x d) ∧
  (∀ p ∈ persons, ∀ d ∈ dates, rule_2 x p d) ∧
  (∀ p ∈ persons, rule_3 x p)

/-- shift_counts (src/main.py line 49): for each person, the sum of the
shift variables of that person over all dates, as a rational expression. -/
def shift_counts (x : Shifts) : List ℚ :=
  persons.map (fun person => (dates.map (fun date => (b x person date : ℚ))).sum)

/-- mean_num_shifts (src/main.py line 50): sum(shift_counts) / len(shift_counts). -/
def mean_num_shifts (x : Shifts) : ℚ :=
  (shift_counts x).sum / ((shift_counts x).length : ℚ)

/-- standard_deviation_of_shift_counts (src/main.py line 52), the model
objective: sum((i - mean)^2 for i in shift_counts) / (len(shift_counts) - 1).
Despite its name it is the sample variance, not a standard deviation. -/
def standard_deviation_of_shift_counts (x : Shifts) : ℚ :=
  ((shift_counts x).map (fun i => (i - mean_num_shifts x) ^ 2)).sum /
    (((shift_counts x).length : ℚ) - 1)

/-- Modelled from the spec (section 3, Objective): the sample variance of a
list of rationals — the sum of squared deviations from the mean, divided by
(length - 1).  Used only to compare the spec wording with the objective the
code builds. -/
def sampleVariance (l : List ℚ) : ℚ :=
  (l.map (fun v => (v - l.sum / (l.length : ℚ)) ^ 2)).sum / ((l.length : ℚ) - 1)

instance (x : Shifts) (date : Nat) : Decidable (rule_1 x date) :=
  inferInstanceAs (Decidable (_ = _))

instance (x : Shifts) (person : String) (date : Nat) : Decidable (rule_2 x person date) :=
  inferInstanceAs (Decidable (_ → _))

instance (x : Shifts) (person : String) : Decidable (rule_3 x person) :=
  inferInstanceAs (Decidable (_ = _))

/-- A concrete rotation schedule used as a witness: each person covers the
dates congruent to a fixed residue mod 4 (John 3, Peter 0, Mary 2, Josh 1),
which respects every leave day in AL. -/
def xRot : Shifts := fun person date =>
  match person with
  | "John" => decide (date % 4 = 3)
  | "Peter" => decide (date % 4 = 0)
  | "Mary" => decide (date % 4 = 2)
  | "Josh" => decide (date % 4 = 1)
  | _ => false

example : (∀ d ∈ dates, rule_1 xRot d) := by decide
example : (∀ p ∈ persons, ∀ d ∈ dates, rule_2 xRot p d) := by decide
example : (∀ p ∈ persons, rule_3 xRot p) := by decide

/-!
The solve phase (src/main.py lines 59-79).  The solver invokes
callback_function after each main solve with a candidate model _model; the
callback reads the global pair (known_best_objective_value, model.shifts),
possibly prints one progress line, and possibly overwrites both globals.  We
embed the pair of globals as a state, a candidate as (its shifts valuation,
value(_model.objective)), and each print call as an emitted Message.
-/

/-- One progress line printed by callback_function: either the first-solution
line (src/main.py line 66) or the better-solution line (line 68), carrying the
objective value interpolated into the printed f-string. -/
inductive Message where
  | firstSolution (objVal : ℚ)
  | betterSolution (objVal : ℚ)
deriving Repr, DecidableEq

/-- The objective value carried by a progress message. -/
def Message.objVal : Message → ℚ
  | .firstSolution v => v
  | .betterSolution v => v

/-- The global state read and written by callback_function:
known_best_objective_value (None initially) and model.shifts. -/
abbrev SolveState := Option ℚ × Shifts

/-- The test on src/main.py line 63:
known_best_objective_value == None or value(_model.objective) < known_best. -/
def improves (known_best : Option ℚ) (objVal : ℚ) : Bool :=
  match known_best with
  | none => true
  | some v => decide (objVal < v)

/-- callback_function (src/main.py lines 61-72) as a state transformer: given
the globals and a candidate (shifts, objective value), it returns the new
globals and the list of printed progress lines.  On an improvement it prints
exactly one line (first-solution if known_best was None, better-solution
otherwise), stores the objective as known_best_objective_value and copies the
candidate shifts into model.shifts; otherwise it leaves the globals unchanged
and prints nothing. -/
def callback_function (st : SolveState) (cand : Shifts × ℚ) : SolveState × List Message :=
  if improves st.1 cand.2 then
    ((some cand.2, cand.1),
      [match st.1 with
       | none => Message.firstSolution cand.2
       | some _ => Message.betterSolution cand.2])
  else (st, [])

/-- The sequence of callback invocations over one solver run: fold
callback_function over the list of candidates reported by the solver,
accumulating the printed progress lines in order. -/
def run_callbacks : List (Shifts × ℚ) → SolveState → SolveState × List Message
  | [], st => (st, [])
  | cand :: cands, st =>
    let step := callback_function st cand
    let rest := run_callbacks cands step.1
    (rest.1, step.2 ++ rest.2)

/-- The outcome of SolverFactory(mindtpy).solve inside the try block
(src/main.py line 77): either the solve returns normally, or a
KeyboardInterrupt is raised during it.  Both carry the global state as mutated
by the callbacks up to that point. -/
inductive SolveOutcome where
  | completed (st : SolveState)
  | interrupted (st : SolveState)

/-- The try/except around the solve (src/main.py lines 76-79): except
KeyboardInterrupt: pass swallows the interrupt, so the program continues with
the current global state on both paths and no exception propagates. -/
def try_except_solve : SolveOutcome → SolveState
  | .completed st => st
  | .interrupted st => st

/-!
A rebuild of the model-construction phase (src/main.py lines 19-54) with the
annual-leave dictionary as the parameter, used to examine what happens before
any search when the hard-coded AL is varied; the roster and horizon stay
those of the program.  With the four-person roster and 31-day horizon fixed,
rule_1 and rule_2 generation cannot raise (every generated body contains
decision variables, so no constraint collapses to a plain Python Boolean) and
the objective divides by the nonzero constants len(shift_counts) = 4 and
len(shift_counts) - 1 = 3, so no ZeroDivisionError can arise; the only
construction step that can raise is rule_3 (lines 42-44).  The dictionary is
embedded as an association list so that a missing roster key is
representable.
-/

/-- A Python exception raised during model construction on this fixed roster
and horizon: ValueError is what pyomo raises when a constraint rule returns a
plain Boolean instead of an expression, KeyError what Python raises on a
failed dict lookup AL[person] or on indexing model.shifts outside its index
set. -/
inductive PyError where
  | valueError
  | keyError
deriving Repr, DecidableEq

/-- rule_3 generation for one person (src/main.py lines 42-43) under leave
dictionary al.  AL[person] raises KeyError when the key is absent; an empty
leave list makes the rule return the plain Boolean 0 == 0, which pyomo
rejects with a ValueError at line 44; a leave date outside the horizon
raises KeyError because model.shifts = Var(persons, dates) has no such index;
otherwise the generated constraint is that the sum of the leave-day shift
variables of that person is 0. -/
def rule_3_build (al : List (String × List Nat)) (person : String) :
    Except PyError (Shifts → Prop) :=
  match al.lookup person with
  | none => .error .keyError
  | some [] => .error .valueError
  | some l =>
    if l.any (fun d => decide (d ∉ dates)) then .error .keyError
    else .ok (fun x => (l.map (fun d => b x person d)).sum = 0)

/-- model.no_shift_on_annual_leave = Constraint(persons, rule=rule_3)
(src/main.py line 44): the rule is evaluated for each roster person in order,
the first exception aborts construction, and otherwise the generated
constraints are collected. -/
def build_rule_3 : List String → List (String × List Nat) →
    Except PyError (Shifts → Prop)
  | [], _ => .ok (fun _ => True)
  | p :: ps, al =>
    match rule_3_build al p with
    | .error e => .error e
    | .ok c =>
      match build_rule_3 ps al with
      | .error e => .error e
      | .ok cs => .ok (fun x => c x ∧ cs x)

/-- A built model: its constraint set and its objective expression. -/
structure PyModel where
  feasibleSet : Shifts → Prop
  objective : Shifts → ℚ

/-- Model construction (src/main.py lines 19-54) for the fixed roster and
horizon with the leave dictionary as a parameter: rule_1 and rule_2 are
generated without error, then rule_3 generation may raise as described at
rule_3_build, and finally the objective is built (its two denominators are
the nonzero constants 4 and 3, so it never raises here).  On success the
program reaches SolverFactory(mindtpy).solve. -/
def build_model (al : List (String × List Nat)) : Except PyError PyModel :=
  match build_rule_3 persons al with
  | .error e => .error e
  | .ok c3 => .ok
    { feasibleSet := fun x =>
        (∀ d ∈ dates, rule_1 x d) ∧
        (∀ p ∈ persons, ∀ d ∈ dates, rule_2 x p d) ∧ c3 x
      objective := standard_deviation_of_shift_counts }

/-- Whether model construction succeeded (reached the solve call). -/
def buildSucceeds (e : Except PyError PyModel) : Bool :=
  match e with
  | .ok _ => true
  | .error _ => false

/-- The constraint set of a built model, False when construction failed. -/
def builtFeasibleSet (e : Except PyError PyModel) (x : Shifts) : Prop :=
  match e with
  | .ok m => m.feasibleSet x
  | .error _ => False

/-- A leave dictionary in which every roster person is on leave on date 0 of
the horizon, making date 0 impossible to cover. -/
def alAllOnLeave : List (String × List Nat) :=
  [("John", [0]), ("Peter", [0]), ("Mary", [0]), ("Josh", [0])]

/-!
The output phase (src/main.py lines 84-101).  set_up_timetable builds, from
the final model.shifts, one row per horizon date: the date formatted
YYYY-MM-DD, its weekday name, and the comma-joined list of persons whose shift
variable on that date has value 1.
-/

/-- Two-digit zero padding of a day number, as produced by strftime. -/
def pad2 (n : Nat) : String :=
  if n < 10 then "0" ++ toString n else toString n

/-- date.strftime(%Y-%m-%d) for the horizon date at a given offset: every
horizon date lies in January 2024, day of month = offset + 1. -/
def formatted_date (offset : Nat) : String :=
  "2024-01-" ++ pad2 (offset + 1)

/-- The weekday names produced by strftime(%A). -/
def weekday_names : List String :=
  ["Monday", "Tuesday", "Wednesday", "Thursday", "Friday", "Saturday", "Sunday"]

/-- get_weekday_from_date (src/main.py lines 99-101) on the offset embedding:
2024-01-01 is a Monday, so the weekday of the date at a given offset is the
name at index offset mod 7. -/
def get_weekday_from_date (offset : Nat) : String :=
  weekday_names.getD (offset % 7) ""

/-- set_up_timetable (src/main.py lines 84-95): the rows of the produced
DataFrame, one per horizon date in horizon order, zipping the formatted dates,
their weekday names, and the comma-joined persons assigned on each date
([person for person in persons if model.shifts[person, date].value == 1]). -/
def set_up_timetable (x : Shifts) : List (String × String × String) :=
  let formatted_dates := dates.map formatted_date
  let weekdays := dates.map get_weekday_from_date
  let persons_assigned :=
    dates.map (fun date => String.intercalate ", " (persons.filter (fun p => x p date)))
  formatted_dates.zip (weekdays.zip persons_assigned)

/-!
Helper lemmas.
-/

/-- The guard of rule_2 holds exactly when the 3-day window starting at the
given date lies fully inside the horizon. -/
lemma rule_2_applies_iff (date : Nat) :
    rule_2_applies date = true ↔ date + 2 < numDates := by
  simp only [rule_2_applies, date_list, dates, numDates, List.all_cons, List.all_nil,
    Bool.and_eq_true, decide_eq_true_eq, List.mem_range, and_true]
  omega

/-- When a list of 0/1 indicator terms sums to 1, some listed element has its
indicator true, and every listed element with a true indicator is that one. -/
lemma indicator_sum_eq_one (l : List String) (f : String → Bool)
    (h : (l.map (fun p => if f p then 1 else 0)).sum = 1) :
    ∃ p ∈ l, f p = true ∧ ∀ q ∈ l, f q = true → q = p := by
  induction l with
  | nil => simp at h
  | cons a t ih =>
    simp only [List.map_cons, List.sum_cons] at h
    by_cases ha : f a
    · have ht : (t.map (fun p => if f p then 1 else 0)).sum = 0 := by
        rw [if_pos ha] at h; omega
      have hall : ∀ q ∈ t, f q = false := by
        intro q hq
        have h0 := List.sum_eq_zero_iff.mp ht _ (List.mem_map_of_mem _ hq)
        cases hq2 : f q
        · rfl
        · rw [hq2] at h0; simp at h0
      refine ⟨a, List.mem_cons_self a t, ha, ?_⟩
      intro q hq hfq
      rcases List.mem_cons.mp hq with rfl | hq
      · rfl
      · exact absurd (hall q hq) (by simp [hfq])
    · rw [if_neg ha, Nat.zero_add] at h
      obtain ⟨p, hp, hfp, huniq⟩ := ih h
      refine ⟨p, List.mem_cons_of_mem a hp, hfp, ?_⟩
      intro q hq hfq
      rcases List.mem_cons.mp hq with rfl | hq
      · exact absurd hfq (by simp [ha])
      · exact huniq q hq hfq

/-- When a list of 0/1 indicator terms sums to 0, every listed indicator is
false. -/
lemma indicator_sum_eq_zero {l : List Nat} (h : l.sum = 0) : ∀ v ∈ l, v = 0 :=
  List.sum_eq_zero_iff.mp h

/-- A list sum of pointwise additions splits into two list sums. -/
lemma sum_map_add {β M : Type} [AddCommMonoid M] (l : List β) (g h : β → M) :
    (l.map (fun e => g e + h e)).sum = (l.map g).sum + (l.map h).sum := by
  induction l with
  | nil => simp
  | cons e l ih =>
    simp only [List.map_cons, List.sum_cons, ih]
    abel

/-- Exchanging the order of two nested list sums. -/
lemma sum_map_sum_comm {α β M : Type} [AddCommMonoid M]
    (as : List α) (bs : List β) (f : α → β → M) :
    (as.map (fun a => (bs.map (fun e => f a e)).sum)).sum
      = (bs.map (fun e => (as.map (fun a => f a e)).sum)).sum := by
  induction as with
  | nil => simp
  | cons a as ih =>
    simp only [List.map_cons, List.sum_cons, ih]
    exact (sum_map_add bs _ _).symm

/-!
Claims.
-/

/-- C1: with cooldown window W = 3, for every Person in the roster and every
window of 3 consecutive Dates lying fully inside the horizon, any valuation of
the shift variables satisfying all generated rule_2 (cooldown) constraints
assigns that person at most once within the window. -/
theorem C1_cooldown_window (x : Shifts) (p : String) (hp : p ∈ persons)
    (hcool : ∀ q ∈ persons, ∀ d ∈ dates, rule_2 x q d)
    (w : Nat) (hw : w + 2 < numDates) :
    (date_list w).countP (fun d => x p d) ≤ 1 := by
  have hwmem : w ∈ dates := by
    simp only [dates, List.mem_range]; omega
  have h := hcool p hp w hwmem ((rule_2_applies_iff w).mpr hw)
  simp only [date_list, List.map_cons, List.map_nil, List.sum_cons, List.sum_nil, b] at h
  simp only [date_list, List.countP_cons, List.countP_nil]
  by_cases h0 : x p w <;> by_cases h1 : x p (w + 1) <;> by_cases h2 : x p (w + 2) <;>
    simp [h0, h1, h2] at h ⊢

/-- Witness for C1 at the rotation schedule, person John, window starting at
date 0. -/
theorem C1_cooldown_window_witness :
    (date_list 0).countP (fun d => xRot "John" d) ≤ 1 :=
  C1_cooldown_window xRot "John" (by decide) (by decide) 0 (by decide)

/-- C2: every valuation satisfying all generated constraints of the model
assigns, on each Date of the horizon, exactly one Person of the roster, and
any roster Person assigned on a Date is not on annual leave that Date. -/
theorem C2_coverage_and_leave (x : Shifts) (hx : feasible x)
    (d : Nat) (hd : d ∈ dates) :
    (∃! p, p ∈ persons ∧ x p d = true) ∧
    (∀ p ∈ persons, x p d = true → d ∉ AL p) := by
  obtain ⟨h1, -, h3⟩ := hx
  constructor
  · have hsum := h1 d hd
    simp only [rule_1, b] at hsum
    obtain ⟨p, hp, hfp, huniq⟩ := indicator_sum_eq_one persons (fun q => x q d) hsum
    exact ⟨p, ⟨hp, hfp⟩, fun q hq => huniq q hq.1 hq.2⟩
  · intro p hp hxd hdal
    have h := h3 p hp
    simp only [rule_3] at h
    have := indicator_sum_eq_zero h _ (List.mem_map_of_mem _ hdal)
    simp [b, hxd] at this

/-- Witness for C2 at the rotation schedule on date 4. -/
theorem C2_coverage_and_leave_witness :
    (∃! p, p ∈ persons ∧ xRot p 4 = true) ∧
    (∀ p ∈ persons, xRot p 4 = true → 4 ∉ AL p) :=
  C2_coverage_and_leave xRot (by constructor <;> [decide; constructor <;> decide]) 4 (by decide)

/-- C3: for every valuation of the shift variables (in particular every
complete assignment), the objective expression built by the code equals the
sample variance — in the wording of the spec — of the per-person shift
counts. -/
theorem C3_objective_is_sample_variance (x : Shifts) :
    standard_deviation_of_shift_counts x = sampleVariance (shift_counts x) := rfl

/-- The index set of generated cooldown constraints: the rule is evaluated at
every (person, date) pair, and those where the guard fails return
Constraint.Skip so no constraint is added. -/
def cooldown_constraint_indices : List (String × Nat) :=
  (persons.flatMap (fun p => dates.map (fun d => (p, d)))).filter
    (fun pd => rule_2_applies pd.2)

/-- C6: for every Person and every Date in the horizon whose 3-day window
spills past the last Date, no cooldown constraint is generated for that
window, and the skipped rule imposes nothing on any valuation. -/
theorem C6_tail_window_skipped (x : Shifts) (p : String) (d : Nat)
    (_hd : d ∈ dates) (hspill : numDates ≤ d + 2) :
    (p, d) ∉ cooldown_constraint_indices ∧ rule_2 x p d := by
  have happ : rule_2_applies d = false := by
    rw [← Bool.not_eq_true, rule_2_applies_iff]; omega
  constructor
  · intro hmem
    have := (List.mem_filter.mp hmem).2
    simp [happ] at this
  · intro habs
    rw [happ] at habs
    cases habs

/-- Witness for C6 at date 29 (window 29,30,31 spills past the last date 30),
person John, the rotation schedule. -/
theorem C6_tail_window_skipped_witness :
    ("John", 29) ∉ cooldown_constraint_indices ∧ rule_2 xRot "John" 29 :=
  C6_tail_window_skipped xRot "John" 29 (by decide) (by decide)

/-- C4: callback_function replaces the stored incumbent (copying the candidate
shifts into model.shifts and its objective into known_best_objective_value)
and prints exactly one progress line, precisely when no incumbent exists yet
or the candidate objective is strictly lower than the stored one; for a
non-improving candidate it changes nothing and prints nothing. -/
theorem C4_incumbent_update (st : SolveState) (cand : Shifts × ℚ) :
    (((callback_function st cand).1 = (some cand.2, cand.1) ∧
        (callback_function st cand).2.length = 1)
      ↔ (st.1 = none ∨ ∃ v, st.1 = some v ∧ cand.2 < v)) ∧
    (¬ (st.1 = none ∨ ∃ v, st.1 = some v ∧ cand.2 < v) →
      (callback_function st cand).1 = st ∧ (callback_function st cand).2 = []) := by
  obtain ⟨kb, s⟩ := st
  cases kb with
  | none => simp [callback_function, improves]
  | some v =>
    by_cases hlt : cand.2 < v
    · simp [callback_function, improves, hlt]
    · simp [callback_function, improves, hlt]

/-- Witness for C4: an improving candidate (objective 3 against incumbent 5)
is stored and produces one progress line. -/
theorem C4_incumbent_update_witness :
    (callback_function (some 5, xRot) (xRot, 3)).1 = (some 3, xRot) ∧
    (callback_function (some 5, xRot) (xRot, 3)).2.length = 1 :=
  (C4_incumbent_update (some 5, xRot) (xRot, 3)).1.2
    (Or.inr ⟨5, rfl, by norm_num⟩)

/-- When every printed line in a list carries a value below c, so does the
head of the list of carried values, if any. -/
lemma head_objVal_lt {l : List Message} {c : ℚ}
    (hall : ∀ m ∈ l, m.objVal < c) :
    ∀ y ∈ (l.map Message.objVal).head?, y < c := by
  intro y hy
  cases l with
  | nil => simp at hy
  | cons m0 ms =>
    simp only [List.map_cons, List.head?_cons, Option.mem_def,
      Option.some.injEq] at hy
    subst hy
    exact hall m0 (List.mem_cons_self m0 ms)

/-- Invariant of the callback fold: the objective values of the printed
progress lines are strictly decreasing, and once known_best_objective_value is
some v every later printed line carries a value below v. -/
lemma run_callbacks_spec (cands : List (Shifts × ℚ)) (st : SolveState) :
    List.Chain' (fun a e => e < a)
      ((run_callbacks cands st).2.map Message.objVal) ∧
    (∀ v, st.1 = some v → ∀ m ∈ (run_callbacks cands st).2, m.objVal < v) := by
  induction cands generalizing st with
  | nil => simp [run_callbacks]
  | cons c cs ih =>
    obtain ⟨kb, s⟩ := st
    cases kb with
    | none =>
      have hstep : callback_function (none, s) c =
          ((some c.2, c.1), [Message.firstSolution c.2]) := by
        simp [callback_function, improves]
      obtain ⟨ihc, ihb⟩ := ih (some c.2, c.1)
      simp only [run_callbacks, hstep, List.singleton_append, List.map_cons]
      constructor
      · rw [List.chain'_cons']
        exact ⟨head_objVal_lt (ihb c.2 rfl), ihc⟩
      · intro v hv
        simp at hv
    | some v0 =>
      by_cases hlt : c.2 < v0
      · have hstep : callback_function (some v0, s) c =
            ((some c.2, c.1), [Message.betterSolution c.2]) := by
          simp [callback_function, improves, hlt]
        obtain ⟨ihc, ihb⟩ := ih (some c.2, c.1)
        simp only [run_callbacks, hstep, List.singleton_append, List.map_cons]
        constructor
        · rw [List.chain'_cons']
          exact ⟨head_objVal_lt (ihb c.2 rfl), ihc⟩
        · intro v hv m hm
          have hv0 : v0 = v := by injection hv
          subst hv0
          rcases List.mem_cons.mp hm with rfl | hm
          · exact hlt
          · exact lt_trans (ihb c.2 rfl m hm) hlt
      · have hstep : callback_function (some v0, s) c = ((some v0, s), []) := by
          simp [callback_function, improves, hlt]
        obtain ⟨ihc, ihb⟩ := ih (some v0, s)
        simp only [run_callbacks, hstep, List.nil_append]
        exact ⟨ihc, ihb⟩

/-- C5: over any sequence of candidate solutions reported by the solver in a
single run starting from known_best_objective_value = None, the objective
values carried by the successive printed improvement notifications are
strictly decreasing. -/
theorem C5_notifications_strictly_decreasing
    (cands : List (Shifts × ℚ)) (s0 : Shifts) :
    List.Chain' (fun a e => e < a)
      ((run_callbacks cands (none, s0)).2.map Message.objVal) :=
  (run_callbacks_spec cands (none, s0)).1

/-- C7: the KeyboardInterrupt raised while solving is caught by the
try/except and discarded: the program does not propagate it as a failure, its
result is the same global state (known_best_objective_value and the incumbent
shifts copied by the callbacks) that the normal completion path yields. -/
theorem C7_interrupt_swallowed (cands : List (Shifts × ℚ)) (s0 : Shifts) :
    try_except_solve (SolveOutcome.interrupted ((run_callbacks cands (none, s0)).1))
      = (run_callbacks cands (none, s0)).1 ∧
    try_except_solve (SolveOutcome.interrupted ((run_callbacks cands (none, s0)).1))
      = try_except_solve (SolveOutcome.completed ((run_callbacks cands (none, s0)).1)) :=
  ⟨rfl, rfl⟩

/-- C8 counterexample: with the leave dictionary replaced so that every
roster Person is on leave on date 0 of the horizon (so that Date is
impossible to cover), model construction nevertheless succeeds and the
program reaches the solve call — no error of any kind, let alone a
ConfigurationError, is raised before search. -/
theorem C8_counterexample_no_config_error :
    (persons.all (fun p => decide ((0 : Nat) ∈ (alAllOnLeave.lookup p).getD []))) = true ∧
    (decide ((0 : Nat) ∈ dates)) = true ∧
    buildSucceeds (build_model alAllOnLeave) = true :=
  ⟨rfl, rfl, rfl⟩

/-- C8 amended: the program has no ConfigurationError and no pre-search
validation.  When some Date has every Person excluded by leave on it (roster
and horizon as configured), the program does not fail before search: the
model builds, the solve call is reached, and the generated constraints are
unsatisfiable, so the impossibility surfaces as solver infeasibility during
the search rather than as an immediate error. -/
theorem C8_amended_all_on_leave_builds :
    buildSucceeds (build_model alAllOnLeave) = true ∧
    (∀ x : Shifts, ¬ builtFeasibleSet (build_model alAllOnLeave) x) := by
  refine ⟨rfl, ?_⟩
  intro x h
  have h' : (∀ d ∈ dates, rule_1 x d) ∧
      (∀ p ∈ persons, ∀ d ∈ dates, rule_2 x p d) ∧
      ((([(0 : Nat)].map (fun d => b x "John" d)).sum = 0) ∧
       (([(0 : Nat)].map (fun d => b x "Peter" d)).sum = 0) ∧
       (([(0 : Nat)].map (fun d => b x "Mary" d)).sum = 0) ∧
       (([(0 : Nat)].map (fun d => b x "Josh" d)).sum = 0) ∧ True) := h
  obtain ⟨hcov, -, hJ, hP, hM, hJo, -⟩ := h'
  have hsum := hcov 0 (by decide)
  simp only [rule_1, b] at hsum
  obtain ⟨p, hp, hfp, -⟩ := indicator_sum_eq_one persons (fun q => x q 0) hsum
  simp only [List.map_cons, List.map_nil, List.sum_cons, List.sum_nil, b]
    at hJ hP hM hJo
  simp only [persons, List.mem_cons, List.not_mem_nil, or_false] at hp
  rcases hp with rfl | rfl | rfl | rfl
  · simp [hfp] at hJ
  · simp [hfp] at hP
  · simp [hfp] at hM
  · simp [hfp] at hJo

/-- Witness for C8 amended: the rotation schedule does not satisfy the
constraints built from the all-on-leave dictionary. -/
theorem C8_amended_all_on_leave_builds_witness :
    ¬ builtFeasibleSet (build_model alAllOnLeave) xRot :=
  C8_amended_all_on_leave_builds.2 xRot

/-- C9: the produced timetable has exactly one row per Date of the horizon,
in horizon order, and the row of the date at offset i carries that date
formatted YYYY-MM-DD, its weekday name, and the comma-joined Persons whose
shift variable on it is 1 in the final model state. -/
theorem C9_timetable_rows (x : Shifts) (i : Nat) (hi : i < numDates) :
    (set_up_timetable x).length = numDates ∧
    (set_up_timetable x).getD i ("", "", "") =
      (formatted_date i, get_weekday_from_date i,
        String.intercalate ", " (persons.filter (fun p => x p i))) := by
  have hrows : set_up_timetable x =
      (List.range numDates).map (fun d =>
        (formatted_date d, get_weekday_from_date d,
          String.intercalate ", " (persons.filter (fun p => x p d)))) := by
    simp only [set_up_timetable, dates, List.zip_map']
  constructor
  · rw [hrows]; simp
  · rw [hrows]
    simp [List.getD_eq_getElem?_getD, List.getElem?_map, List.getElem?_range hi]

/-- Witness for C9 at the rotation schedule, row 0. -/
theorem C9_timetable_rows_witness :
    (set_up_timetable xRot).length = numDates ∧
    (set_up_timetable xRot).getD 0 ("", "", "") =
      (formatted_date 0, get_weekday_from_date 0,
        String.intercalate ", " (persons.filter (fun p => xRot p 0))) :=
  C9_timetable_rows xRot 0 (by decide)

/-- C10: for every valuation satisfying the coverage constraint rule_1 on all
horizon dates, the per-person shift counts sum to the number of horizon
dates, so mean_num_shifts is the assignment-independent constant
numDates / number of persons (31/4). -/
theorem C10_total_shifts_and_mean (x : Shifts)
    (hcov : ∀ d ∈ dates, rule_1 x d) :
    (shift_counts x).sum = (numDates : ℚ) ∧
    mean_num_shifts x = (numDates : ℚ) / (persons.length : ℚ) := by
  have hsum : (shift_counts x).sum = (numDates : ℚ) := by
    rw [shift_counts, sum_map_sum_comm persons dates (fun p d => (b x p d : ℚ))]
    have hone : ∀ d ∈ dates, (persons.map (fun p => (b x p d : ℚ))).sum = 1 := by
      intro d hd
      have h := hcov d hd
      rw [rule_1] at h
      have hcast : (persons.map (fun p => ((b x p d : ℕ) : ℚ))).sum
          = (((persons.map (fun p => b x p d)).sum : ℕ) : ℚ) := by
        rw [Nat.cast_list_sum, List.map_map]; rfl
      rw [hcast, h]; norm_num
    rw [List.map_congr_left hone]
    simp [dates, List.map_const', List.sum_replicate]
  have hlen : (shift_counts x).length = persons.length := by
    simp [shift_counts]
  refine ⟨hsum, ?_⟩
  rw [mean_num_shifts, hsum, hlen]

/-- Witness for C10 at the rotation schedule. -/
theorem C10_total_shifts_and_mean_witness :
    (shift_counts xRot).sum = (numDates : ℚ) ∧
    mean_num_shifts xRot = (numDates : ℚ) / (persons.length : ℚ) :=
  C10_total_shifts_and_mean xRot (by decide)

end Roster
